import Mathlib

/-
Verification of the loudflow action-resolution core (src/loudflow/realm):
a shallow embedding of the Thing entity model (things/thing.py), the World
registry and move resolver (worlds/world.py), the TileWorld generator
(worlds/tile_world/tile_world.py) and the configuration validation
(worlds/world.py, worlds/tile_world/tile_world.py), together with theorems
about the resolver's interaction rules, invariants and error behaviour.

Conventions of the embedding:
- Thing identifiers are uuid4 strings in the source, used only for equality
  and dictionary keying; they are embedded as natural numbers, with a fresh
  counter standing for the uuid generator (each generated id is distinct
  from every id generated before).
- The registry `self.things: Dict[str, Thing]` keys every entry by
  `thing.id` (see World.add), so it is embedded as a `List Thing` in
  insertion order; `dict.values()` iteration order is insertion order,
  which `locate` and `find_by_name` rely on.
- Python exceptions (the ValueError raised for an unknown actor,
  the KeyError raised by `del` on an absent key) are embedded as an
  explicit error result, and the recursion through the rx `actions`
  subject (push cascades re-enter `World.move` synchronously once the
  world is started) is embedded with an explicit fuel parameter;
  exhausting the fuel corresponds to Python's unbounded recursion
  never terminating (RecursionError).
-/

namespace Loudflow

/-- Entity record, from things/thing.py (Thing.__init__ copies these fields
from its ThingConfiguration; char and color are presentation-only). -/
structure Thing where
  id : Nat
  kind : String
  name : String
  x : Int
  y : Int
  char : String
  color : Int × Int × Int
  can_move : Bool
  can_be_destroyed : Bool
  can_destroy : List String
deriving Repr, DecidableEq

/-- Python `str.lower()` on one character, for the ASCII alphabet the
program's kind labels are drawn from. -/
def pyLowerChar (c : Char) : Char :=
  if 65 ≤ c.toNat ∧ c.toNat ≤ 90 then Char.ofNat (c.toNat + 32) else c

/-- Python `str.lower()`, ASCII-faithful. -/
def pyLower (s : String) : String := ⟨s.data.map pyLowerChar⟩

/-- Thing.is_destroyed_by: self is destructible and self's kind appears
case-insensitively in the other thing's destroy set. -/
def Thing.is_destroyed_by (self thing : Thing) : Bool :=
  self.can_be_destroyed && (thing.can_destroy.map pyLower).contains (pyLower self.kind)

/-- Thing.destroys: the other thing is destructible and its kind appears
case-insensitively in self's destroy set. -/
def Thing.destroys (self thing : Thing) : Bool :=
  thing.can_be_destroyed && (self.can_destroy.map pyLower).contains (pyLower thing.kind)

/-- Thing.pushes: both movable and no destroy relation in either direction. -/
def Thing.pushes (self thing : Thing) : Bool :=
  if !self.can_move then false
  else if !thing.can_move then false
  else if self.destroys thing || self.is_destroyed_by thing then false
  else true

/-- The outcome events published on the world's `events` subject, from
events/action_event.py (ActionSucceeded, ActionNotAllowed, ActionBlocked,
ActorDestroyed), together with the change notification of
events/change_event.py + changes/movement.py (ChangeEvent wrapping
Movement(subject, x, y)), which the events channel could also carry.
`action_event_id` is the identifier of the ActionEvent being resolved. -/
inductive WorldEvent where
  | actionSucceeded (action_event_id : Nat)
  | actionNotAllowed (action_event_id : Nat)
  | actionBlocked (action_event_id : Nat) (blocked_by : Nat)
  | actorDestroyed (action_event_id : Nat) (destroyed_by : Nat)
  | changeEvent (subject : Nat) (x y : Int)
deriving Repr, DecidableEq

/-- The action-event id an outcome event correlates to; a change
notification correlates to no action request. -/
def WorldEvent.correlationId : WorldEvent → Option Nat
  | .actionSucceeded e => some e
  | .actionNotAllowed e => some e
  | .actionBlocked e _ => some e
  | .actorDestroyed e _ => some e
  | .changeEvent _ _ _ => none

/-- World registry state: width/height from the configuration and the
`things` dictionary (keyed by thing.id, kept in insertion order). -/
structure World where
  width : Int
  height : Int
  things : List Thing
deriving Repr, DecidableEq

/-- `self.things.get(id, None)`: dictionary lookup by thing identifier. -/
def World.getThing (w : World) (id : Nat) : Option Thing :=
  w.things.find? (fun t => t.id == id)

/-- World.add: with `replace` True, unconditionally insert under the
thing's id (overwriting in place); otherwise insert only when no entry
exists for that id, returning whether the thing was added.  `silent`
only controls a log message. -/
def World.add (w : World) (thing : Thing) (replace : Bool) (silent : Bool) :
    World × Bool :=
  if replace then
    if w.things.any (fun t => t.id == thing.id) then
      ({ w with things := w.things.map (fun t => if t.id == thing.id then thing else t) }, true)
    else
      ({ w with things := w.things ++ [thing] }, true)
  else
    match w.getThing thing.id with
    | none => ({ w with things := w.things ++ [thing] }, true)
    | some _ => (w, false)

/-- World.remove: `del self.things[thing_id]`; deleting an absent key
raises a KeyError, embedded as `none`. -/
def World.remove (w : World) (thing_id : Nat) : Option World :=
  if w.things.any (fun t => t.id == thing_id) then
    some { w with things := w.things.filter (fun t => t.id != thing_id) }
  else
    none

/-- World.locate: linear scan over `self.things.values()` in insertion
order, returning the first thing at the given coordinates. -/
def World.locate (w : World) (x y : Int) : Option Thing :=
  w.things.find? (fun t => t.x == x && t.y == y)

/-- World.find_by_name: linear scan returning the first thing with the
given display name. -/
def World.find_by_name (w : World) (name : String) : Option Thing :=
  w.things.find? (fun t => t.name == name)

/-- `actor.x += dx; actor.y += dy`: the actor object is shared with the
registry entry under its id, so the in-place mutation updates that entry
(and is invisible to the registry when the entry was already deleted). -/
def World.bump (w : World) (id : Nat) (dx dy : Int) : World :=
  { w with
    things := w.things.map (fun t =>
      if t.id == id then { t with x := t.x + dx, y := t.y + dy } else t) }

/-- The message of the ValueError raised by World.move for an unknown
actor id (the referential fatal error). -/
def refErrorMsg (actor : Nat) : String :=
  "Cannot move thing [" ++ toString actor ++ "] because it cannot be found in world."

/-- The KeyError raised by `del self.things[thing_id]` on an absent key. -/
def keyErrorMsg (thing_id : Nat) : String :=
  "KeyError: " ++ toString thing_id

/-- Result of one resolve call: normal completion with the new world
state, the outcome events published on `self.events` in order, and the
advanced fresh-id counter; or a propagated Python exception; or fuel
exhaustion (standing for unbounded push recursion). -/
inductive MoveResult where
  | ok (w : World) (events : List WorldEvent) (next : Nat)
  | error (msg : String)
  | fuelOut
deriving Repr, DecidableEq

/-- World.move / World._do_move / World._do_move_with_occupant from
worlds/world.py, with the two helpers inlined at their unique call
sites.  `event_id` is the id of the ActionEvent being resolved and
`next` is the fresh uuid counter: the derived ActionEvent built in the
push branch receives the fresh id `next`, and its resolution (the rx
`actions` subject delivers it synchronously back to World.on_next, hence
to World.move, once the world is started) happens before the actor's
position changes. -/
def World.move : Nat → World → Nat → Int → Int → Nat → Nat → MoveResult
  | 0, _, _, _, _, _, _ => .fuelOut
  | fuel + 1, w, actor_id, dx, dy, event_id, next =>
    match w.getThing actor_id with
    | none => .error (refErrorMsg actor_id)
    | some actor =>
      -- World._do_move
      if actor.can_move then
        match w.locate (actor.x + dx) (actor.y + dy) with
        | none =>
          .ok (w.bump actor.id dx dy) [.actionSucceeded event_id] next
        | some occupant =>
          -- World._do_move_with_occupant
          if actor.pushes occupant then
            match World.move fuel w occupant.id dx dy next (next + 1) with
            | .ok w2 evs n2 =>
              .ok (w2.bump actor.id dx dy) (evs ++ [.actionSucceeded event_id]) n2
            | r => r
          else if actor.destroys occupant && actor.is_destroyed_by occupant then
            match w.remove actor.id with
            | none => .error (keyErrorMsg actor.id)
            | some w1 =>
              match w1.remove occupant.id with
              | none => .error (keyErrorMsg occupant.id)
              | some w2 =>
                .ok w2 [.actorDestroyed event_id occupant.id] next
          else if actor.destroys occupant then
            match w.remove occupant.id with
            | none => .error (keyErrorMsg occupant.id)
            | some w1 =>
              .ok (w1.bump actor.id dx dy) [.actionSucceeded event_id] next
          else if actor.is_destroyed_by occupant then
            match w.remove actor.id with
            | none => .error (keyErrorMsg actor.id)
            | some w1 =>
              .ok w1 [.actorDestroyed event_id occupant.id] next
          else
            .ok w [.actionBlocked event_id occupant.id] next
      else
        .ok w [.actionNotAllowed event_id] next

/-- A resolve call with its fuel, actor id, deltas, event id and fresh
counter, used to talk about sequences of resolve calls. -/
structure MoveCall where
  fuel : Nat
  actor : Nat
  dx : Int
  dy : Int
  event_id : Nat
  next : Nat
deriving Repr, DecidableEq

/-- Apply a sequence of resolve calls in order; a call that does not
complete normally leaves the registry in place for the purpose of this
fold (resolve never adds registry entries in any branch, so id absence
is preserved either way). -/
def applyMoves (w : World) : List MoveCall → World
  | [] => w
  | c :: rest =>
    match World.move c.fuel w c.actor c.dx c.dy c.event_id c.next with
    | .ok w' _ _ => applyMoves w' rest
    | _ => applyMoves w rest

/-- The spec's placement invariant for a single thing. -/
def Thing.inBounds (t : Thing) (width height : Int) : Bool :=
  0 ≤ t.x && t.x < width && 0 ≤ t.y && t.y < height

/-- Every registered thing lies within `[0, width) × [0, height)`. -/
def World.allInBounds (w : World) : Bool :=
  w.things.all (fun t => t.inBounds w.width w.height)

/-- At most one registered thing occupies any cell. -/
def World.atMostOnePerCell (w : World) : Prop :=
  w.things.Pairwise (fun a b => a.x ≠ b.x ∨ a.y ≠ b.y)

/-- Number of registered things of the given kind. -/
def World.kindCount (w : World) (kind : String) : Nat :=
  (w.things.filter (fun t => t.kind == kind)).length

/-- Python `int(a / b)` on integers: true division truncated toward zero. -/
def pydivInt (a b : Int) : Int := Int.tdiv a b

/-- The product `q * n` of a rational density and an integer cell count,
under exact arithmetic. -/
def ratMulInt (q : Rat) (n : Int) : Rat := mkRat (q.num * n) q.den

/-- Python `int(q)`: truncation toward zero. -/
def pytrunc (q : Rat) : Int := Int.tdiv q.num (q.den : Int)

/-- The random sources feeding TileWorld generation: `rand` is the stream
of `(randint(0, width - 1), randint(0, height - 1))` pairs in draw order
(`idx` the next position consumed), `names` the stream of random-adjective
display names, and `fresh` the uuid counter (each Thing created gets the
next identifier, so generated ids are pairwise distinct). -/
structure Gen where
  rand : Nat → Int × Int
  names : Nat → String
  idx : Nat
  fresh : Nat

/-- Modelled from the spec: the Agent entity of
worlds/tile_world/agent.py is absent from the sources (only Hole is
present as a template); the spec designates it the player-controlled,
movable entity seeded at the grid centre, of kind "agent" (kind labels
follow the ThingKind enum member names, as in Hole).  Capabilities
beyond movability do not affect generation. -/
def mkAgent (id : Nat) (name : String) (x y : Int) : Thing :=
  { id, kind := "AGENT", name, x, y, char := "@", color := (255, 255, 255),
    can_move := true, can_be_destroyed := true, can_destroy := [] }

/-- Modelled from the spec: the Obstacle entity of
worlds/tile_world/obstacle.py is absent from the sources; per the spec it
is an immobile obstacle of kind "obstacle" with no destroy relation. -/
def mkObstacle (id : Nat) (name : String) (x y : Int) : Thing :=
  { id, kind := "OBSTACLE", name, x, y, char := "#", color := (128, 128, 128),
    can_move := false, can_be_destroyed := false, can_destroy := [] }

/-- The Hole entity, from worlds/tile_world/hole.py. -/
def mkHole (id : Nat) (name : String) (x y : Int) : Thing :=
  { id, kind := "HOLE", name, x, y, char := "O", color := (0, 255, 0),
    can_move := false, can_be_destroyed := false,
    can_destroy := ["agent", "tile"] }

/-- Modelled from the spec: the Tile entity of
worlds/tile_world/tile.py is absent from the sources; per the spec it is
a decoration of kind "tile", destructible (holes name "tile" in their
destroy set). -/
def mkTile (id : Nat) (name : String) (x y : Int) : Thing :=
  { id, kind := "TILE", name, x, y, char := ".", color := (0, 0, 255),
    can_move := false, can_be_destroyed := true, can_destroy := [] }

/-- One category's placement loop in TileWorld.__init__: draw a random
coordinate pair, construct the thing with a fresh id and random name, and
perform a non-replacing, silent add; the counter is decremented on every
iteration whether or not the add succeeded. -/
def placeLoop (mk : Nat → String → Int → Int → Thing) :
    Nat → World → Gen → World × Gen
  | 0, w, g => (w, g)
  | count + 1, w, g =>
    let xy := g.rand g.idx
    let thing := mk g.fresh (g.names g.fresh) xy.1 xy.2
    let (w1, _) := w.add thing false true
    placeLoop mk count w1 { g with idx := g.idx + 1, fresh := g.fresh + 1 }

/-- TileWorld.__init__ (after the World base constructor made the empty
registry): place the agent at the grid centre with a non-replacing add,
then `int(obstacles * cell_count)` obstacles, `int(holes * cell_count)`
holes, and — as written in the source — `tile_count = hole_count` tiles,
each through the placement loop. -/
def tileWorldInit (width height : Int) (obstacles holes : Rat) (g : Gen) :
    World × Gen :=
  let w0 : World := { width := width, height := height, things := [] }
  let agent := mkAgent g.fresh (g.names g.fresh) (pydivInt width 2) (pydivInt height 2)
  let g1 : Gen := { g with fresh := g.fresh + 1 }
  let (w1, _) := w0.add agent false true
  let cell_count := width * height
  let obstacle_count := pytrunc (ratMulInt obstacles cell_count)
  let (w2, g2) := placeLoop mkObstacle obstacle_count.toNat w1 g1
  let hole_count := pytrunc (ratMulInt holes cell_count)
  let (w3, g3) := placeLoop mkHole hole_count.toNat w2 g2
  let tile_count := hole_count
  let (w4, g4) := placeLoop mkTile tile_count.toNat w3 g3
  (w4, g4)

/-- Closed form of the things appended by one placement loop: the `n`
things built from consecutive random draws and fresh ids. -/
def genThings (mk : Nat → String → Int → Int → Thing) (n : Nat) (g : Gen) :
    List Thing :=
  (List.range n).map (fun k =>
    mk (g.fresh + k) (g.names (g.fresh + k)) (g.rand (g.idx + k)).1 (g.rand (g.idx + k)).2)

/-- An untyped Python value, as far as the configuration validators
inspect one: None, or an int, bool, float or str.  `isinstance(v, int)`
is true for bools (bool is a subclass of int); `isinstance(v, float)` is
not true for ints. -/
inductive PyVal where
  | vnone
  | vint (i : Int)
  | vbool (b : Bool)
  | vfloat (q : Rat)
  | vstr (s : String)
deriving Repr, DecidableEq

/-- isinstance(v, str). -/
def PyVal.isStr : PyVal → Bool
  | .vstr _ => true
  | _ => false

/-- isinstance(v, int); Python bools are ints. -/
def PyVal.isInt : PyVal → Bool
  | .vint _ => true
  | .vbool _ => true
  | _ => false

/-- isinstance(v, float). -/
def PyVal.isFloat : PyVal → Bool
  | .vfloat _ => true
  | _ => false

/-- The attribute state of a TileWorldConfiguration dataclass before
validation (TileWorldConfiguration.build passes whatever the config
dictionary held, or None when absent). -/
structure TileWorldConfigData where
  name : PyVal
  width : PyVal
  height : PyVal
  obstacles : PyVal
  holes : PyVal
deriving Repr, DecidableEq

/-- WorldConfiguration.__post_init__: name must be present and a str;
a missing width defaults to 80 and a missing height to 50; width and
height must then be ints.  No positivity check is performed. -/
def worldConfigPostInit (c : TileWorldConfigData) :
    Except String TileWorldConfigData :=
  if c.name == .vnone then
    .error "Missing required attribute [name: str] in WorldConfiguration."
  else if !c.name.isStr then
    .error "Invalid type for attribute [name: str] in WorldConfiguration."
  else
    let c := if c.width == .vnone then { c with width := .vint 80 } else c
    if !c.width.isInt then
      .error "Invalid type for attribute [width: int] in WorldConfiguration."
    else
      let c := if c.height == .vnone then { c with height := .vint 50 } else c
      if !c.height.isInt then
        .error "Invalid type for attribute [height: int] in WorldConfiguration."
      else
        .ok c

/-- TileWorldConfiguration.__post_init__: runs the base validation, then
handles the densities.  As written in the source, a missing density
assigns its default to the attribute `width` (not to `obstacles` or
`holes`), after which the isinstance float check is performed on the
still-missing density; no range check against [0, 1) is performed. -/
def tileWorldConfigPostInit (c : TileWorldConfigData) :
    Except String TileWorldConfigData :=
  match worldConfigPostInit c with
  | .error m => .error m
  | .ok c =>
    let c := if c.obstacles == .vnone then { c with width := .vfloat (1 / 100) } else c
    if !c.obstacles.isFloat then
      .error "Invalid type for attribute [obstacles: float] in TileWorldConfiguration."
    else
      let c := if c.holes == .vnone then { c with width := .vfloat (1 / 1000) } else c
      if !c.holes.isFloat then
        .error "Invalid type for attribute [holes: float] in TileWorldConfiguration."
      else
        .ok c

/-- `int(density * cell_count)` clamped to a loop count (a nonpositive
count runs the placement loop zero times). -/
def quota (width height : Int) (density : Rat) : Nat :=
  (pytrunc (ratMulInt density (width * height))).toNat

/-- Total number of placement draws consumed after the agent: obstacles,
holes, then tiles (the source sets tile_count = hole_count). -/
def totalDraws (width height : Int) (obstacles holes : Rat) : Nat :=
  quota width height obstacles + quota width height holes + quota width height holes

/-- Concrete fixture: a movable agent for the unoccupied-move scenarios. -/
def fix2A : Thing :=
  { id := 1, kind := "agent", name := "a", x := 0, y := 0, char := "@",
    color := (1, 1, 1), can_move := true, can_be_destroyed := false,
    can_destroy := [] }

/-- Concrete fixture: a world holding only `fix2A`. -/
def fix2W : World := { width := 10, height := 10, things := [fix2A] }

/-- Concrete fixture: an immovable, indestructible rock. -/
def fix7R : Thing :=
  { id := 3, kind := "rock", name := "r", x := 0, y := 0, char := "X",
    color := (1, 1, 1), can_move := false, can_be_destroyed := false,
    can_destroy := [] }

/-- Concrete fixture: an occupant sitting at the rock's destination. -/
def fix7B : Thing :=
  { id := 4, kind := "box", name := "b", x := 1, y := 0, char := "#",
    color := (1, 1, 1), can_move := true, can_be_destroyed := false,
    can_destroy := [] }

/-- Concrete fixture: world with the immovable rock and an occupant. -/
def fix7W : World := { width := 10, height := 10, things := [fix7R, fix7B] }

/-- Concrete fixture: a movable actor blocked by a rock. -/
def fix1A : Thing :=
  { id := 1, kind := "agent", name := "a", x := 0, y := 0, char := "@",
    color := (1, 1, 1), can_move := true, can_be_destroyed := false,
    can_destroy := [] }

/-- Concrete fixture: the rock occupying the actor's destination. -/
def fix1R : Thing :=
  { id := 2, kind := "rock", name := "r", x := 1, y := 0, char := "X",
    color := (1, 1, 1), can_move := false, can_be_destroyed := false,
    can_destroy := [] }

/-- Concrete fixture: world for the blocked-move scenario. -/
def fix1W : World := { width := 10, height := 10, things := [fix1A, fix1R] }

/-- Concrete fixture: a movable thing that can destroy its own kind and
can be destroyed, so a zero-delta move makes it mutually destroy itself. -/
def fix1S : Thing :=
  { id := 1, kind := "agent", name := "s", x := 0, y := 0, char := "@",
    color := (1, 1, 1), can_move := true, can_be_destroyed := true,
    can_destroy := ["agent"] }

/-- Concrete fixture: world holding only the self-destroyer. -/
def fix1CW : World := { width := 10, height := 10, things := [fix1S] }

/-- Concrete fixture: a movable thing at the left edge of a 5×5 world. -/
def fix3A : Thing :=
  { id := 1, kind := "agent", name := "a", x := 0, y := 0, char := "@",
    color := (1, 1, 1), can_move := true, can_be_destroyed := false,
    can_destroy := [] }

/-- Concrete fixture: 5×5 world for the bounds scenarios. -/
def fix3W : World := { width := 5, height := 5, things := [fix3A] }

/-- Concrete fixture: a movable agent about to push a box into a rock. -/
def fix4A : Thing :=
  { id := 1, kind := "agent", name := "a", x := 0, y := 0, char := "@",
    color := (1, 1, 1), can_move := true, can_be_destroyed := false,
    can_destroy := [] }

/-- Concrete fixture: the movable box in the middle of the chain. -/
def fix4B : Thing :=
  { id := 2, kind := "box", name := "b", x := 1, y := 0, char := "#",
    color := (1, 1, 1), can_move := true, can_be_destroyed := false,
    can_destroy := [] }

/-- Concrete fixture: the rock that blocks the box. -/
def fix4R : Thing :=
  { id := 3, kind := "rock", name := "r", x := 2, y := 0, char := "X",
    color := (1, 1, 1), can_move := false, can_be_destroyed := false,
    can_destroy := [] }

/-- Concrete fixture: agent-box-rock world for the failed-push scenario. -/
def fix4W : World := { width := 10, height := 10, things := [fix4A, fix4B, fix4R] }

/-- Concrete fixture: generator streams drawing distinct cells (k, 0). -/
def fix4G : Gen :=
  { rand := fun k => ((k : Int), 0), names := fun _ => "n", idx := 0, fresh := 0 }

/-- Concrete fixture: a movable actor for the outcome-event scenarios. -/
def fix5A : Thing :=
  { id := 1, kind := "agent", name := "a", x := 0, y := 0, char := "@",
    color := (1, 1, 1), can_move := true, can_be_destroyed := false,
    can_destroy := [] }

/-- Concrete fixture: world for the outcome-event scenarios. -/
def fix5W : World := { width := 10, height := 10, things := [fix5A] }

/-- Concrete fixture: one of two things that destroy each other. -/
def fix6A : Thing :=
  { id := 1, kind := "ka", name := "a", x := 0, y := 0, char := "A",
    color := (1, 1, 1), can_move := true, can_be_destroyed := true,
    can_destroy := ["kb"] }

/-- Concrete fixture: the other of two things that destroy each other. -/
def fix6B : Thing :=
  { id := 2, kind := "kb", name := "b", x := 1, y := 0, char := "B",
    color := (1, 1, 1), can_move := false, can_be_destroyed := true,
    can_destroy := ["ka"] }

/-- Concrete fixture: world for the mutual-destruction scenario. -/
def fix6W : World := { width := 10, height := 10, things := [fix6A, fix6B] }

/-- Concrete fixture: generator streams that always draw the cell (1, 0),
the agent's centre cell in a 2×1 world. -/
def fix9G : Gen :=
  { rand := fun _ => (1, 0), names := fun _ => "n", idx := 0, fresh := 0 }

end Loudflow

namespace Loudflow

/-- C10: for all Things A and B, `A.destroys B` returns the same boolean as
`B.is_destroyed_by A`, and both hold exactly when B is destructible and the
lowercase of B's kind is among the lowercased elements of A's destroy set. -/
theorem destroys_eq_is_destroyed_by (a b : Thing) :
    a.destroys b = b.is_destroyed_by a ∧
    (a.destroys b = true ↔
      b.can_be_destroyed = true ∧
        pyLower b.kind ∈ a.can_destroy.map pyLower) := by
  constructor
  · rfl
  · simp [Thing.destroys, List.contains_iff_exists_mem_beq]

theorem getThing_mem {w : World} {i : Nat} {t : Thing}
    (h : w.getThing i = some t) : t ∈ w.things ∧ t.id = i := by
  refine ⟨List.mem_of_find?_eq_some h, ?_⟩
  have := List.find?_some h
  simpa using this

theorem find?_map_idp (l : List Thing) (i : Nat) (f : Thing → Thing)
    (hf : ∀ t, (f t).id = t.id) :
    (l.map f).find? (fun t => t.id == i) = (l.find? (fun t => t.id == i)).map f := by
  induction l with
  | nil => rfl
  | cons hd tl ih =>
    simp only [List.map_cons, List.find?_cons]
    by_cases h : (hd.id == i)
    · simp [hf, h]
    · simp [hf, h, ih]

theorem bump_fn_id (i : Nat) (dx dy : Int) (t : Thing) :
    ((fun t => if t.id == i then { t with x := t.x + dx, y := t.y + dy } else t) t).id
      = t.id := by
  by_cases h : (t.id == i) <;> simp [h]

theorem getThing_bump (w : World) (i j : Nat) (dx dy : Int) :
    (w.bump i dx dy).getThing j =
      (w.getThing j).map
        (fun t => if t.id == i then { t with x := t.x + dx, y := t.y + dy } else t) := by
  unfold World.bump World.getThing
  exact find?_map_idp _ _ _ (bump_fn_id i dx dy)

theorem mem_bump_of_ne {w : World} {i : Nat} {dx dy : Int} {t : Thing}
    (ht : t ∈ w.things) (hne : t.id ≠ i) : t ∈ (w.bump i dx dy).things := by
  unfold World.bump
  exact List.mem_map.mpr ⟨t, ht, by simp [hne]⟩

theorem of_mem_bump_ne {w : World} {i : Nat} {dx dy : Int} {t : Thing}
    (ht : t ∈ (w.bump i dx dy).things) (hne : t.id ≠ i) : t ∈ w.things := by
  unfold World.bump at ht
  rcases List.mem_map.mp ht with ⟨u, hu, hut⟩
  by_cases h : (u.id == i)
  · exfalso
    apply hne
    rw [← hut]
    simp only [h, if_true]
    exact eq_of_beq h
  · rw [if_neg (by simpa using h)] at hut
    exact hut ▸ hu

theorem remove_eq_filter_of_mem {w : World} {i : Nat} {t : Thing}
    (hmem : t ∈ w.things) (hid : t.id = i) :
    w.remove i = some { w with things := w.things.filter (fun u => u.id != i) } := by
  unfold World.remove
  have : w.things.any (fun u => u.id == i) = true :=
    List.any_eq_true.mpr ⟨t, hmem, by simp [hid]⟩
  simp [this]

theorem find?_filter_id_ne (l : List Thing) (i j : Nat) (hij : j ≠ i) :
    (l.filter (fun t => t.id != i)).find? (fun t => t.id == j) =
      l.find? (fun t => t.id == j) := by
  induction l with
  | nil => rfl
  | cons hd tl ih =>
    by_cases h : (hd.id == j)
    · have hne : (hd.id != i) = true := by
        have : hd.id = j := eq_of_beq h
        simp [this, hij]
      simp [List.filter_cons, hne, List.find?_cons, h]
    · by_cases h2 : (hd.id != i) <;>
        simp [List.filter_cons, h2, List.find?_cons, h, ih]

theorem find?_filter_id_self (l : List Thing) (i : Nat) :
    (l.filter (fun t => t.id != i)).find? (fun t => t.id == i) = none := by
  apply List.find?_eq_none.mpr
  intro x hx
  have hmem := List.mem_filter.mp hx
  simpa using hmem.2

/-- C7: resolve with a registered actor whose can_move is false emits
NotAllowed and leaves the whole world state (positions and registry
membership) unchanged, regardless of occupancy of the destination. -/
theorem resolve_not_movable (fuel : Nat) (w : World) (aid : Nat) (dx dy : Int)
    (e n : Nat) (actor : Thing)
    (hget : w.getThing aid = some actor)
    (hmove : actor.can_move = false) :
    World.move (fuel + 1) w aid dx dy e n = .ok w [.actionNotAllowed e] n := by
  simp only [World.move, hget, hmove]
  simp

/-- Witness for C7 at the rock-with-occupant fixture. -/
theorem resolve_not_movable_witness :
    fix7W.getThing 3 = some fix7R ∧ fix7R.can_move = false ∧
      fix7W.locate (fix7R.x + 1) (fix7R.y + 0) = some fix7B ∧
      World.move 3 fix7W 3 1 0 7 9 = .ok fix7W [.actionNotAllowed 7] 9 :=
  ⟨by decide, by decide, by decide,
    resolve_not_movable 2 fix7W 3 1 0 7 9 fix7R (by decide) (by decide)⟩

/-- C2: resolve with a registered, movable actor and an unoccupied
destination emits Succeeded and moves the actor to old position plus
(dx, dy) exactly, while every other thing's value (hence position) and
registry membership are unchanged. -/
theorem resolve_unoccupied (fuel : Nat) (w : World) (aid : Nat) (dx dy : Int)
    (e n : Nat) (actor : Thing)
    (hget : w.getThing aid = some actor)
    (hmove : actor.can_move = true)
    (hocc : w.locate (actor.x + dx) (actor.y + dy) = none) :
    World.move (fuel + 1) w aid dx dy e n =
        .ok (w.bump actor.id dx dy) [.actionSucceeded e] n ∧
      (w.bump actor.id dx dy).getThing aid =
        some { actor with x := actor.x + dx, y := actor.y + dy } ∧
      (∀ t ∈ w.things, t.id ≠ aid → t ∈ (w.bump actor.id dx dy).things) ∧
      (∀ t ∈ (w.bump actor.id dx dy).things, t.id ≠ aid → t ∈ w.things) := by
  have haid : actor.id = aid := (getThing_mem hget).2
  subst haid
  refine ⟨?_, ?_, ?_, ?_⟩
  · simp only [World.move, hget, hmove, hocc]
    simp
  · rw [getThing_bump, hget]
    simp
  · intro t ht hne
    exact mem_bump_of_ne ht hne
  · intro t ht hne
    exact of_mem_bump_ne ht hne

/-- Witness for C2 at the single-agent fixture. -/
theorem resolve_unoccupied_witness :
    fix2W.getThing 1 = some fix2A ∧ fix2A.can_move = true ∧
      fix2W.locate (fix2A.x + 1) (fix2A.y + 1) = none ∧
      World.move 4 fix2W 1 1 1 11 12 =
        .ok (fix2W.bump 1 1 1) [.actionSucceeded 11] 12 ∧
      (fix2W.bump 1 1 1).getThing 1 =
        some { fix2A with x := fix2A.x + 1, y := fix2A.y + 1 } :=
  ⟨by decide, by decide, by decide,
    (resolve_unoccupied 3 fix2W 1 1 1 11 12 fix2A (by decide) (by decide)
        (by decide)).1,
    (resolve_unoccupied 3 fix2W 1 1 1 11 12 fix2A (by decide) (by decide)
        (by decide)).2.1⟩

/-- C1 (amended): with a registered movable actor and an occupant
distinct from the actor at the destination, the resolver applies exactly
the first matching rule of: push (the occupant's derived move with the
same deltas is resolved first and, provided it completes with an
outcome, the actor then moves to the destination and Succeeded is
emitted regardless of that outcome), mutual destruction (both removed,
ActorDestroyed with the occupant's id, no movement), actor destroys
occupant (occupant removed, actor moves, Succeeded), occupant destroys
actor (actor removed, occupant untouched, ActorDestroyed), otherwise
Blocked with the occupant's id and no mutation. -/
theorem resolve_occupied_rules (fuel : Nat) (w : World) (aid : Nat)
    (dx dy : Int) (e n : Nat) (actor occupant : Thing)
    (hget : w.getThing aid = some actor)
    (hmove : actor.can_move = true)
    (hocc : w.locate (actor.x + dx) (actor.y + dy) = some occupant)
    (hne : occupant.id ≠ actor.id) :
    (actor.pushes occupant = true →
      ∀ w2 evs2 n2,
        World.move fuel w occupant.id dx dy n (n + 1) = .ok w2 evs2 n2 →
          World.move (fuel + 1) w aid dx dy e n =
              .ok (w2.bump actor.id dx dy) (evs2 ++ [.actionSucceeded e]) n2 ∧
            ∀ a2, w2.getThing actor.id = some a2 →
              (w2.bump actor.id dx dy).getThing actor.id =
                some { a2 with x := a2.x + dx, y := a2.y + dy }) ∧
    (actor.pushes occupant = false → actor.destroys occupant = true →
      actor.is_destroyed_by occupant = true →
        World.move (fuel + 1) w aid dx dy e n =
          .ok { w with
                  things := (w.things.filter (fun t => t.id != actor.id)).filter
                    (fun t => t.id != occupant.id) }
            [.actorDestroyed e occupant.id] n) ∧
    (actor.pushes occupant = false → actor.destroys occupant = true →
      actor.is_destroyed_by occupant = false →
        World.move (fuel + 1) w aid dx dy e n =
            .ok (World.bump
                  { w with things := w.things.filter (fun t => t.id != occupant.id) }
                  actor.id dx dy)
              [.actionSucceeded e] n ∧
          (World.bump
              { w with things := w.things.filter (fun t => t.id != occupant.id) }
              actor.id dx dy).getThing actor.id =
            some { actor with x := actor.x + dx, y := actor.y + dy }) ∧
    (actor.pushes occupant = false → actor.destroys occupant = false →
      actor.is_destroyed_by occupant = true →
        World.move (fuel + 1) w aid dx dy e n =
            .ok { w with things := w.things.filter (fun t => t.id != actor.id) }
              [.actorDestroyed e occupant.id] n ∧
          occupant ∈ ({ w with things := w.things.filter (fun t => t.id != actor.id) } : World).things) ∧
    (actor.pushes occupant = false → actor.destroys occupant = false →
      actor.is_destroyed_by occupant = false →
        World.move (fuel + 1) w aid dx dy e n =
          .ok w [.actionBlocked e occupant.id] n) := by
  have haid : actor.id = aid := (getThing_mem hget).2
  subst haid
  have hamem : actor ∈ w.things := (getThing_mem hget).1
  have homem : occupant ∈ w.things := List.mem_of_find?_eq_some hocc
  refine ⟨?_, ?_, ?_, ?_, ?_⟩
  · intro hpush w2 evs2 n2 hsub
    constructor
    · simp only [World.move, hget, hmove, hocc, hpush, hsub]
      simp
    · intro a2 ha2
      rw [getThing_bump, ha2]
      have := (getThing_mem ha2).2
      simp [this]
  · intro hpush hd hdb
    have hrem1 := remove_eq_filter_of_mem hamem rfl
    have homem1 : occupant ∈
        ({ w with things := w.things.filter (fun t => t.id != actor.id) } : World).things :=
      List.mem_filter.mpr ⟨homem, by simp [hne]⟩
    have hrem2 := remove_eq_filter_of_mem homem1 rfl
    simp only [World.move, hget, hmove, hocc, hpush, hd, hdb, hrem1, hrem2]
    simp
  · intro hpush hd hdb
    have hrem1 := remove_eq_filter_of_mem homem rfl
    constructor
    · simp only [World.move, hget, hmove, hocc, hpush, hd, hdb, hrem1]
      simp
    · rw [getThing_bump]
      have : ({ w with things := w.things.filter (fun t => t.id != occupant.id) } : World).getThing actor.id
          = some actor := by
        unfold World.getThing
        rw [find?_filter_id_ne w.things occupant.id actor.id (fun h => hne h.symm)]
        exact hget
      rw [this]
      simp
  · intro hpush hd hdb
    have hrem1 := remove_eq_filter_of_mem hamem rfl
    refine ⟨?_, List.mem_filter.mpr ⟨homem, by simp [hne]⟩⟩
    simp only [World.move, hget, hmove, hocc, hpush, hd, hdb, hrem1]
    simp
  · intro hpush hd hdb
    simp only [World.move, hget, hmove, hocc, hpush, hd, hdb]
    simp

/-- Counterexample for C1: a zero-delta move makes locate designate the
actor itself as the occupant of its destination; it satisfies the
mutual-destruction predicates, yet the resolver raises a KeyError on the
second registry removal instead of removing both ids and emitting
ActorDestroyed. -/
theorem resolve_occupied_self_counterexample :
    fix1CW.getThing 1 = some fix1S ∧
      fix1S.can_move = true ∧
      fix1CW.locate (fix1S.x + 0) (fix1S.y + 0) = some fix1S ∧
      fix1S.pushes fix1S = false ∧
      fix1S.destroys fix1S = true ∧
      fix1S.is_destroyed_by fix1S = true ∧
      World.move 2 fix1CW 1 0 0 5 6 = .error (keyErrorMsg 1) := by
  decide

/-- Witness for C1 at the blocked-move fixture (rule 5). -/
theorem resolve_occupied_rules_witness :
    fix1W.getThing 1 = some fix1A ∧ fix1A.can_move = true ∧
      fix1W.locate (fix1A.x + 1) (fix1A.y + 0) = some fix1R ∧
      fix1R.id ≠ fix1A.id ∧
      World.move 3 fix1W 1 1 0 21 22 = .ok fix1W [.actionBlocked 21 2] 22 :=
  ⟨by decide, by decide, by decide, by decide,
    (resolve_occupied_rules 2 fix1W 1 1 0 21 22 fix1A fix1R (by decide)
        (by decide) (by decide) (by decide)).2.2.2.2
      (by decide) (by decide) (by decide)⟩

/-- Counterexample for C3: the resolver performs no bounds check — from
an all-in-bounds 5×5 world, a move with dx = -1 on the thing at (0, 0)
completes with Succeeded and leaves it at x = -1, outside [0, width). -/
theorem bounds_not_preserved_counterexample :
    fix3W.allInBounds = true ∧
      World.move 1 fix3W 1 (-1) 0 0 1 =
        .ok (fix3W.bump 1 (-1) 0) [.actionSucceeded 0] 1 ∧
      (fix3W.bump 1 (-1) 0).allInBounds = false := by
  decide

/-- C3 (amended): the resolver never checks bounds, so the in-bounds
invariant is not preserved in general (see the counterexample); it is
preserved by a resolve that moves a registered movable actor into an
unoccupied destination lying within [0, width) × [0, height). -/
theorem resolve_unoccupied_preserves_bounds (fuel : Nat) (w : World)
    (aid : Nat) (dx dy : Int) (e n : Nat) (actor : Thing)
    (hnd : (w.things.map Thing.id).Nodup)
    (hget : w.getThing aid = some actor)
    (hmove : actor.can_move = true)
    (hocc : w.locate (actor.x + dx) (actor.y + dy) = none)
    (hib : w.allInBounds = true)
    (hx0 : 0 ≤ actor.x + dx) (hx1 : actor.x + dx < w.width)
    (hy0 : 0 ≤ actor.y + dy) (hy1 : actor.y + dy < w.height) :
    World.move (fuel + 1) w aid dx dy e n =
        .ok (w.bump actor.id dx dy) [.actionSucceeded e] n ∧
      (w.bump actor.id dx dy).allInBounds = true := by
  have hamem : actor ∈ w.things := (getThing_mem hget).1
  refine ⟨(resolve_unoccupied fuel w aid dx dy e n actor hget hmove hocc).1, ?_⟩
  unfold World.allInBounds at hib ⊢
  unfold World.bump
  simp only [List.all_eq_true] at hib ⊢
  intro t' ht'
  rcases List.mem_map.mp ht' with ⟨u, hu, hut⟩
  by_cases h : (u.id == actor.id)
  · have hua : u = actor :=
      List.inj_on_of_nodup_map hnd hu hamem (eq_of_beq h)
    subst hua
    rw [if_pos h] at hut
    subst hut
    unfold Thing.inBounds
    simp only [Bool.and_eq_true, decide_eq_true_eq]
    exact ⟨⟨⟨hx0, hx1⟩, hy0⟩, hy1⟩
  · rw [if_neg (by simpa using h)] at hut
    subst hut
    exact hib u hu

/-- Witness for the amended C3 at the 5×5 fixture, moving right. -/
theorem resolve_preserves_bounds_witness :
    fix3W.allInBounds = true ∧
      World.move 2 fix3W 1 1 0 0 1 =
        .ok (fix3W.bump 1 1 0) [.actionSucceeded 0] 1 ∧
      (fix3W.bump 1 1 0).allInBounds = true :=
  ⟨by decide,
    (resolve_unoccupied_preserves_bounds 1 fix3W 1 1 0 0 1 fix3A (by decide)
        (by decide) (by decide) (by decide) (by decide) (by decide)
        (by decide) (by decide) (by decide)).1,
    (resolve_unoccupied_preserves_bounds 1 fix3W 1 1 0 0 1 fix3A (by decide)
        (by decide) (by decide) (by decide) (by decide) (by decide)
        (by decide) (by decide) (by decide)).2⟩

/-- Counterexample for C4: in the agent-box-rock chain the push of the
box is blocked by the rock, yet the actor still moves into the box's
cell: after the resolve completes, two registered things occupy (1, 0). -/
theorem overlap_after_failed_push_counterexample :
    fix4W.atMostOnePerCell ∧
      World.move 5 fix4W 1 1 0 100 200 =
        .ok { width := 10, height := 10,
              things := [{ fix4A with x := 1 }, fix4B, fix4R] }
          [.actionBlocked 200 3, .actionSucceeded 100] 201 ∧
      ¬ ({ width := 10, height := 10,
           things := [{ fix4A with x := 1 }, fix4B, fix4R] } : World).atMostOnePerCell := by
  refine ⟨?_, by decide, ?_⟩
  · unfold World.atMostOnePerCell
    decide
  · unfold World.atMostOnePerCell
    decide

theorem getThing_eq_none {w : World} {i : Nat} :
    w.getThing i = none ↔ ∀ t ∈ w.things, t.id ≠ i := by
  unfold World.getThing
  rw [List.find?_eq_none]
  simp

theorem bump_preserves_absent {w : World} {j i : Nat} {dx dy : Int}
    (habs : w.getThing i = none) : (w.bump j dx dy).getThing i = none := by
  rw [getThing_bump, habs]
  rfl

theorem remove_preserves_absent {w w1 : World} {j i : Nat}
    (hr : w.remove j = some w1) (habs : w.getThing i = none) :
    w1.getThing i = none := by
  unfold World.remove at hr
  by_cases hc : w.things.any (fun t => t.id == j) = true
  · rw [if_pos hc] at hr
    cases hr
    rw [getThing_eq_none] at habs ⊢
    intro t ht
    exact habs t (List.mem_filter.mp ht).1
  · rw [if_neg hc] at hr
    cases hr

theorem move_absent_error (fuel : Nat) (w : World) (aid : Nat) (dx dy : Int)
    (e n : Nat) (h : w.getThing aid = none) :
    World.move (fuel + 1) w aid dx dy e n = .error (refErrorMsg aid) := by
  simp only [World.move, h]

theorem move_events_structure :
    ∀ fuel w aid dx dy e n w' evs n',
      World.move fuel w aid dx dy e n = .ok w' evs n' →
        n ≤ n' ∧
        ∃ pre last, evs = pre ++ [last] ∧ last.correlationId = some e ∧
          ∀ ev ∈ pre, ∃ i, ev.correlationId = some i ∧ n ≤ i ∧ i < n' := by
  intro fuel
  induction fuel with
  | zero =>
    intro w aid dx dy e n w' evs n' h
    simp only [World.move] at h
    cases h
  | succ f ih =>
    intro w aid dx dy e n w' evs n' h
    simp only [World.move] at h
    cases hg : w.getThing aid with
    | none => simp only [hg] at h; cases h
    | some actor =>
      simp only [hg] at h
      by_cases hm : actor.can_move = true
      · simp only [if_pos hm] at h
        cases hloc : w.locate (actor.x + dx) (actor.y + dy) with
        | none =>
          simp only [hloc] at h
          cases h
          exact ⟨Nat.le_refl n, [], .actionSucceeded e, rfl, rfl, by simp⟩
        | some occupant =>
          simp only [hloc] at h
          by_cases hp : actor.pushes occupant = true
          · simp only [if_pos hp] at h
            cases hsub : World.move f w occupant.id dx dy n (n + 1) with
            | ok w2 evs2 n2 =>
              simp only [hsub] at h
              cases h
              obtain ⟨hle, pre2, last2, hevs2, hlast2, hpre2⟩ :=
                ih w occupant.id dx dy n (n + 1) _ _ _ hsub
              refine ⟨by omega, evs2, .actionSucceeded e, rfl, rfl, ?_⟩
              intro ev hev
              rw [hevs2] at hev
              rcases List.mem_append.mp hev with h1 | h2
              · rcases hpre2 ev h1 with ⟨i, hi, hni, hin⟩
                exact ⟨i, hi, by omega, hin⟩
              · have hevl : ev = last2 := by simpa using h2
                subst hevl
                exact ⟨n, hlast2, Nat.le_refl n, by omega⟩
            | error m => simp only [hsub] at h; cases h
            | fuelOut => simp only [hsub] at h; cases h
          · simp only [if_neg hp] at h
            by_cases hmd :
                (actor.destroys occupant && actor.is_destroyed_by occupant) = true
            · simp only [if_pos hmd] at h
              cases hr1 : w.remove actor.id with
              | none => simp only [hr1] at h; cases h
              | some w1 =>
                simp only [hr1] at h
                cases hr2 : w1.remove occupant.id with
                | none => simp only [hr2] at h; cases h
                | some w2 =>
                  simp only [hr2] at h
                  cases h
                  exact ⟨Nat.le_refl n, [], .actorDestroyed e occupant.id, rfl, rfl,
                    by simp⟩
            · simp only [if_neg hmd] at h
              by_cases hdo : actor.destroys occupant = true
              · simp only [if_pos hdo] at h
                cases hr1 : w.remove occupant.id with
                | none => simp only [hr1] at h; cases h
                | some w1 =>
                  simp only [hr1] at h
                  cases h
                  exact ⟨Nat.le_refl n, [], .actionSucceeded e, rfl, rfl, by simp⟩
              · simp only [if_neg hdo] at h
                by_cases hdb : actor.is_destroyed_by occupant = true
                · simp only [if_pos hdb] at h
                  cases hr1 : w.remove actor.id with
                  | none => simp only [hr1] at h; cases h
                  | some w1 =>
                    simp only [hr1] at h
                    cases h
                    exact ⟨Nat.le_refl n, [], .actorDestroyed e occupant.id, rfl, rfl,
                      by simp⟩
                · simp only [if_neg hdb] at h
                  cases h
                  exact ⟨Nat.le_refl n, [], .actionBlocked e occupant.id, rfl, rfl,
                    by simp⟩
      · simp only [if_neg hm] at h
        cases h
        exact ⟨Nat.le_refl n, [], .actionNotAllowed e, rfl, rfl, by simp⟩

/-- C5 (amended): every resolve that completes normally publishes
exactly one terminal outcome event correlated to the request's event id
(cascaded sub-requests correlate to their own fresh ids), and every
published event is an outcome event — no change notification is emitted
(see the counterexample for the unoccupied-destination move). -/
theorem resolve_exactly_one_outcome (fuel : Nat) (w : World) (aid : Nat)
    (dx dy : Int) (e n : Nat) (w' : World) (evs : List WorldEvent) (n' : Nat)
    (hlt : e < n)
    (hok : World.move fuel w aid dx dy e n = .ok w' evs n') :
    evs.countP (fun ev => ev.correlationId == some e) = 1 ∧
      ∀ ev ∈ evs, ev.correlationId ≠ none := by
  obtain ⟨hle, pre, last, hevs, hlast, hpre⟩ :=
    move_events_structure fuel w aid dx dy e n w' evs n' hok
  subst hevs
  constructor
  · rw [List.countP_append]
    have h0 : pre.countP (fun ev => ev.correlationId == some e) = 0 := by
      rw [List.countP_eq_zero]
      intro ev hev
      rcases hpre ev hev with ⟨i, hi, hni, _⟩
      simp [hi]
      omega
    rw [h0]
    simp [hlast]
  · intro ev hev
    rcases List.mem_append.mp hev with h1 | h2
    · rcases hpre ev h1 with ⟨i, hi, _, _⟩
      simp [hi]
    · have hevl : ev = last := by simpa using h2
      subst hevl
      simp [hlast]

/-- Counterexample for C5: the resolve that moves the actor into an
unoccupied destination publishes only the Succeeded outcome; the event
list contains no change notification describing the new position. -/
theorem no_change_notification_counterexample :
    World.move 1 fix5W 1 1 0 0 1 =
        .ok (fix5W.bump 1 1 0) [.actionSucceeded 0] 1 ∧
      ([WorldEvent.actionSucceeded 0].countP
          (fun ev => ev.correlationId.isNone) = 0) := by
  decide

/-- Witness for the amended C5 at the single-agent fixture. -/
theorem resolve_exactly_one_outcome_witness :
    ([WorldEvent.actionSucceeded 0].countP
        (fun ev => ev.correlationId == some 0) = 1) ∧
      ∀ ev ∈ [WorldEvent.actionSucceeded 0], ev.correlationId ≠ none :=
  resolve_exactly_one_outcome 1 fix5W 1 1 0 0 1 (fix5W.bump 1 1 0)
    [.actionSucceeded 0] 1 (by decide) (by decide)

theorem move_preserves_absent :
    ∀ fuel w aid dx dy e n w' evs n' i,
      World.move fuel w aid dx dy e n = .ok w' evs n' →
        w.getThing i = none → w'.getThing i = none := by
  intro fuel
  induction fuel with
  | zero =>
    intro w aid dx dy e n w' evs n' i h habs
    simp only [World.move] at h
    cases h
  | succ f ih =>
    intro w aid dx dy e n w' evs n' i h habs
    simp only [World.move] at h
    cases hg : w.getThing aid with
    | none => simp only [hg] at h; cases h
    | some actor =>
      simp only [hg] at h
      by_cases hm : actor.can_move = true
      · simp only [if_pos hm] at h
        cases hloc : w.locate (actor.x + dx) (actor.y + dy) with
        | none =>
          simp only [hloc] at h
          cases h
          exact bump_preserves_absent habs
        | some occupant =>
          simp only [hloc] at h
          by_cases hp : actor.pushes occupant = true
          · simp only [if_pos hp] at h
            cases hsub : World.move f w occupant.id dx dy n (n + 1) with
            | ok w2 evs2 n2 =>
              simp only [hsub] at h
              cases h
              exact bump_preserves_absent
                (ih w occupant.id dx dy n (n + 1) _ _ _ i hsub habs)
            | error m => simp only [hsub] at h; cases h
            | fuelOut => simp only [hsub] at h; cases h
          · simp only [if_neg hp] at h
            by_cases hmd :
                (actor.destroys occupant && actor.is_destroyed_by occupant) = true
            · simp only [if_pos hmd] at h
              cases hr1 : w.remove actor.id with
              | none => simp only [hr1] at h; cases h
              | some w1 =>
                simp only [hr1] at h
                cases hr2 : w1.remove occupant.id with
                | none => simp only [hr2] at h; cases h
                | some w2 =>
                  simp only [hr2] at h
                  cases h
                  exact remove_preserves_absent hr2
                    (remove_preserves_absent hr1 habs)
            · simp only [if_neg hmd] at h
              by_cases hdo : actor.destroys occupant = true
              · simp only [if_pos hdo] at h
                cases hr1 : w.remove occupant.id with
                | none => simp only [hr1] at h; cases h
                | some w1 =>
                  simp only [hr1] at h
                  cases h
                  exact bump_preserves_absent (remove_preserves_absent hr1 habs)
              · simp only [if_neg hdo] at h
                by_cases hdb : actor.is_destroyed_by occupant = true
                · simp only [if_pos hdb] at h
                  cases hr1 : w.remove actor.id with
                  | none => simp only [hr1] at h; cases h
                  | some w1 =>
                    simp only [hr1] at h
                    cases h
                    exact remove_preserves_absent hr1 habs
                · simp only [if_neg hdb] at h
                  cases h
                  exact habs
      · simp only [if_neg hm] at h
        cases h
        exact habs

theorem applyMoves_preserves_absent (calls : List MoveCall) :
    ∀ w i, w.getThing i = none → (applyMoves w calls).getThing i = none := by
  induction calls with
  | nil =>
    intro w i h
    exact h
  | cons c rest ih =>
    intro w i h
    cases hm : World.move c.fuel w c.actor c.dx c.dy c.event_id c.next with
    | ok w' evs n' =>
      simp only [applyMoves, hm]
      exact ih w' i
        (move_preserves_absent c.fuel w c.actor c.dx c.dy c.event_id c.next
          w' evs n' i hm h)
    | error m =>
      simp only [applyMoves, hm]
      exact ih w i h
    | fuelOut =>
      simp only [applyMoves, hm]
      exact ih w i h

/-- C6: a resolve that mutually destroys the registered movable actor A
and the distinct occupant B removes both ids from the registry and
emits ActorDestroyed with destroyed-by = B's id; after any further
sequence of resolve calls, a resolve naming A or B as actor yields the
referential fatal error rather than an outcome event. -/
theorem mutual_destruction_permanent (fuel : Nat) (w : World) (aid : Nat)
    (dx dy : Int) (e n : Nat) (actor occupant : Thing)
    (hget : w.getThing aid = some actor)
    (hmove : actor.can_move = true)
    (hocc : w.locate (actor.x + dx) (actor.y + dy) = some occupant)
    (hne : occupant.id ≠ actor.id)
    (hpush : actor.pushes occupant = false)
    (hd : actor.destroys occupant = true)
    (hdb : actor.is_destroyed_by occupant = true) :
    ∃ w', World.move (fuel + 1) w aid dx dy e n =
        .ok w' [.actorDestroyed e occupant.id] n ∧
      w'.getThing actor.id = none ∧ w'.getThing occupant.id = none ∧
      ∀ calls : List MoveCall, ∀ f2 : Nat, ∀ dx2 dy2 : Int, ∀ e2 n2 : Nat,
        World.move (f2 + 1) (applyMoves w' calls) actor.id dx2 dy2 e2 n2 =
            .error (refErrorMsg actor.id) ∧
          World.move (f2 + 1) (applyMoves w' calls) occupant.id dx2 dy2 e2 n2 =
            .error (refErrorMsg occupant.id) := by
  have haid : actor.id = aid := (getThing_mem hget).2
  subst haid
  have hamem : actor ∈ w.things := (getThing_mem hget).1
  have homem : occupant ∈ w.things := List.mem_of_find?_eq_some hocc
  have hrem1 := remove_eq_filter_of_mem hamem rfl
  have homem1 : occupant ∈
      ({ w with things := w.things.filter (fun t => t.id != actor.id) } : World).things :=
    List.mem_filter.mpr ⟨homem, by simp [hne]⟩
  have hrem2 := remove_eq_filter_of_mem homem1 rfl
  refine ⟨{ w with
            things := (w.things.filter (fun t => t.id != actor.id)).filter
              (fun t => t.id != occupant.id) }, ?_, ?_, ?_, ?_⟩
  · simp only [World.move, hget, hmove, hocc, hpush, hd, hdb, hrem1, hrem2]
    simp
  · rw [getThing_eq_none]
    intro t ht
    have := (List.mem_filter.mp (List.mem_filter.mp ht).1).2
    simpa using this
  · rw [getThing_eq_none]
    intro t ht
    have := (List.mem_filter.mp ht).2
    simpa using this
  · intro calls f2 dx2 dy2 e2 n2
    constructor
    · apply move_absent_error
      apply applyMoves_preserves_absent
      rw [getThing_eq_none]
      intro t ht
      have := (List.mem_filter.mp (List.mem_filter.mp ht).1).2
      simpa using this
    · apply move_absent_error
      apply applyMoves_preserves_absent
      rw [getThing_eq_none]
      intro t ht
      have := (List.mem_filter.mp ht).2
      simpa using this

/-- Witness for C6 at the two mutually-destroying things. -/
theorem mutual_destruction_witness :
    ∃ w', World.move 2 fix6W 1 1 0 3 4 = .ok w' [.actorDestroyed 3 2] 4 ∧
      w'.getThing 1 = none ∧ w'.getThing 2 = none ∧
      ∀ calls : List MoveCall, ∀ f2 : Nat, ∀ dx2 dy2 : Int, ∀ e2 n2 : Nat,
        World.move (f2 + 1) (applyMoves w' calls) 1 dx2 dy2 e2 n2 =
            .error (refErrorMsg 1) ∧
          World.move (f2 + 1) (applyMoves w' calls) 2 dx2 dy2 e2 n2 =
            .error (refErrorMsg 2) :=
  mutual_destruction_permanent 1 fix6W 1 1 0 3 4 fix6A fix6B (by decide)
    (by decide) (by decide) (by decide) (by decide) (by decide) (by decide)

/-- Counterexample for C8: a negative width passes validation (there is
no positivity check) together with densities of 2 and 3/2 (there is no
[0, 1) range check), while an absent obstacles density raises a
ValueError instead of applying a small default and succeeding. -/
theorem config_validation_counterexample :
    tileWorldConfigPostInit
        ⟨.vstr "w", .vint (-5), .vint 0, .vfloat 2, .vfloat (3 / 2)⟩ =
        .ok ⟨.vstr "w", .vint (-5), .vint 0, .vfloat 2, .vfloat (3 / 2)⟩ ∧
      tileWorldConfigPostInit
          ⟨.vstr "w", .vint 8, .vint 5, .vnone, .vfloat (1 / 10)⟩ =
        .error "Invalid type for attribute [obstacles: float] in TileWorldConfiguration." :=
  ⟨rfl, rfl⟩

/-- C8 (amended): construction raises a fatal error exactly for type
errors — a missing or non-str name, a present non-int width or height,
or a present non-float density; width and height are not checked for
positivity and densities are not checked against [0, 1); an absent
width or height defaults to 80 or 50; an absent density is mishandled:
the source assigns its default to the width attribute and then raises
the density's isinstance error, so construction fails instead of
applying the default. -/
theorem config_validation_behavior (s : String) (i j : Int) (q r : Rat) :
    (tileWorldConfigPostInit ⟨.vstr s, .vint i, .vint j, .vfloat q, .vfloat r⟩ =
        .ok ⟨.vstr s, .vint i, .vint j, .vfloat q, .vfloat r⟩) ∧
      (tileWorldConfigPostInit ⟨.vstr s, .vnone, .vnone, .vfloat q, .vfloat r⟩ =
        .ok ⟨.vstr s, .vint 80, .vint 50, .vfloat q, .vfloat r⟩) ∧
      (tileWorldConfigPostInit ⟨.vstr s, .vint i, .vint j, .vnone, .vfloat r⟩ =
        .error "Invalid type for attribute [obstacles: float] in TileWorldConfiguration.") ∧
      (tileWorldConfigPostInit ⟨.vstr s, .vint i, .vint j, .vfloat q, .vnone⟩ =
        .error "Invalid type for attribute [holes: float] in TileWorldConfiguration.") ∧
      (tileWorldConfigPostInit ⟨.vnone, .vint i, .vint j, .vfloat q, .vfloat r⟩ =
        .error "Missing required attribute [name: str] in WorldConfiguration.") ∧
      (tileWorldConfigPostInit ⟨.vstr s, .vfloat q, .vint j, .vfloat q, .vfloat r⟩ =
        .error "Invalid type for attribute [width: int] in WorldConfiguration.") := by
  refine ⟨?_, ?_, ?_, ?_, ?_, ?_⟩ <;>
    simp [tileWorldConfigPostInit, worldConfigPostInit, PyVal.isStr, PyVal.isInt,
      PyVal.isFloat]

theorem genThings_succ (mk : Nat → String → Int → Int → Thing) (n : Nat)
    (g : Gen) :
    genThings mk (n + 1) g =
      mk g.fresh (g.names g.fresh) (g.rand g.idx).1 (g.rand g.idx).2 ::
        genThings mk n { g with idx := g.idx + 1, fresh := g.fresh + 1 } := by
  unfold genThings
  rw [List.range_succ_eq_map]
  simp only [List.map_cons, List.map_map, Nat.add_zero]
  congr 1
  apply List.map_congr_left
  intro k hk
  have h1 : g.fresh + Nat.succ k = g.fresh + 1 + k := by omega
  have h2 : g.idx + Nat.succ k = g.idx + 1 + k := by omega
  simp [Function.comp, h1, h2]

theorem placeLoop_spec (mk : Nat → String → Int → Int → Thing)
    (hmk : ∀ i nm x y, (mk i nm x y).id = i) :
    ∀ n w g, (∀ t ∈ w.things, t.id < g.fresh) →
      (placeLoop mk n w g).1.width = w.width ∧
      (placeLoop mk n w g).1.height = w.height ∧
      (placeLoop mk n w g).1.things = w.things ++ genThings mk n g ∧
      (placeLoop mk n w g).2.rand = g.rand ∧
      (placeLoop mk n w g).2.names = g.names ∧
      (placeLoop mk n w g).2.idx = g.idx + n ∧
      (placeLoop mk n w g).2.fresh = g.fresh + n := by
  intro n
  induction n with
  | zero =>
    intro w g hb
    simp [placeLoop, genThings]
  | succ m ih =>
    intro w g hb
    have hnone : w.getThing
        (mk g.fresh (g.names g.fresh) (g.rand g.idx).1 (g.rand g.idx).2).id = none := by
      rw [getThing_eq_none]
      intro t ht
      rw [hmk]
      exact Nat.ne_of_lt (hb t ht)
    have hadd : w.add
        (mk g.fresh (g.names g.fresh) (g.rand g.idx).1 (g.rand g.idx).2) false true =
        ({ w with things := w.things ++
            [mk g.fresh (g.names g.fresh) (g.rand g.idx).1 (g.rand g.idx).2] }, true) := by
      unfold World.add
      rw [hnone]
      simp
    have hb1 : ∀ t ∈ ({ w with things := w.things ++
        [mk g.fresh (g.names g.fresh) (g.rand g.idx).1 (g.rand g.idx).2] } : World).things,
        t.id < ({ g with idx := g.idx + 1, fresh := g.fresh + 1 } : Gen).fresh := by
      intro t ht
      rcases List.mem_append.mp ht with h1 | h2
      · have := hb t h1
        simp only []
        omega
      · have ht' : t = mk g.fresh (g.names g.fresh) (g.rand g.idx).1 (g.rand g.idx).2 := by
          simpa using h2
        subst ht'
        rw [hmk]
        simp
    obtain ⟨hw, hh, hth, hr, hn, hi, hf⟩ :=
      ih ({ w with things := w.things ++
            [mk g.fresh (g.names g.fresh) (g.rand g.idx).1 (g.rand g.idx).2] })
        ({ g with idx := g.idx + 1, fresh := g.fresh + 1 }) hb1
    have hstep : placeLoop mk (m + 1) w g =
        placeLoop mk m
          ({ w with things := w.things ++
              [mk g.fresh (g.names g.fresh) (g.rand g.idx).1 (g.rand g.idx).2] })
          ({ g with idx := g.idx + 1, fresh := g.fresh + 1 }) := by
      simp only [placeLoop, hadd]
    rw [hstep]
    refine ⟨hw, hh, ?_, hr, hn,
      by rw [hi]; show g.idx + 1 + m = g.idx + (m + 1); omega,
      by rw [hf]; show g.fresh + 1 + m = g.fresh + (m + 1); omega⟩
    rw [hth, genThings_succ]
    simp

theorem genThings_id_lt (mk : Nat → String → Int → Int → Thing)
    (hmk : ∀ i nm x y, (mk i nm x y).id = i) (n : Nat) (g : Gen) :
    ∀ t ∈ genThings mk n g, t.id < g.fresh + n := by
  intro t ht
  unfold genThings at ht
  rcases List.mem_map.mp ht with ⟨k, hk, hkt⟩
  rw [← hkt, hmk]
  have := List.mem_range.mp hk
  omega

theorem genThings_kind_filter_eq (mk : Nat → String → Int → Int → Thing)
    (kind : String) (hm : ∀ i nm x y, ((mk i nm x y).kind == kind) = true)
    (n : Nat) (g : Gen) :
    ((genThings mk n g).filter (fun t => t.kind == kind)).length = n := by
  rw [List.filter_eq_self.mpr]
  · simp [genThings]
  · intro t ht
    unfold genThings at ht
    rcases List.mem_map.mp ht with ⟨k, _, hkt⟩
    rw [← hkt]
    exact hm _ _ _ _

theorem genThings_kind_filter_ne (mk : Nat → String → Int → Int → Thing)
    (kind : String) (hm : ∀ i nm x y, ((mk i nm x y).kind == kind) = false)
    (n : Nat) (g : Gen) :
    ((genThings mk n g).filter (fun t => t.kind == kind)).length = 0 := by
  rw [List.length_eq_zero]
  rw [List.filter_eq_nil_iff]
  intro t ht
  rcases List.mem_map.mp ht with ⟨k, _, hkt⟩
  rw [← hkt]
  simp [hm]

theorem genThings_positions (mk : Nat → String → Int → Int → Thing)
    (hxy : ∀ i nm x y, ((mk i nm x y).x, (mk i nm x y).y) = (x, y))
    (n : Nat) (g : Gen) :
    (genThings mk n g).map (fun t => (t.x, t.y)) =
      (List.range n).map (fun k => g.rand (g.idx + k)) := by
  unfold genThings
  rw [List.map_map]
  apply List.map_congr_left
  intro k _
  simp only [Function.comp]
  rw [hxy]

theorem tileWorldInit_stages (width height : Int) (obstacles holes : Rat)
    (g : Gen) :
    tileWorldInit width height obstacles holes g =
      placeLoop mkTile (quota width height holes)
        (placeLoop mkHole (quota width height holes)
          (placeLoop mkObstacle (quota width height obstacles)
            { width := width, height := height,
              things := [mkAgent g.fresh (g.names g.fresh)
                (pydivInt width 2) (pydivInt height 2)] }
            { g with fresh := g.fresh + 1 }).1
          (placeLoop mkObstacle (quota width height obstacles)
            { width := width, height := height,
              things := [mkAgent g.fresh (g.names g.fresh)
                (pydivInt width 2) (pydivInt height 2)] }
            { g with fresh := g.fresh + 1 }).2).1
        (placeLoop mkHole (quota width height holes)
          (placeLoop mkObstacle (quota width height obstacles)
            { width := width, height := height,
              things := [mkAgent g.fresh (g.names g.fresh)
                (pydivInt width 2) (pydivInt height 2)] }
            { g with fresh := g.fresh + 1 }).1
          (placeLoop mkObstacle (quota width height obstacles)
            { width := width, height := height,
              things := [mkAgent g.fresh (g.names g.fresh)
                (pydivInt width 2) (pydivInt height 2)] }
            { g with fresh := g.fresh + 1 }).2).2 := rfl

/-- C9 (amended): generation always registers exactly
int(obstacles × width × height) obstacle-kind things, for every random
stream: each placement attempt succeeds because thing ids are freshly
generated and the non-replacing add keys on id, not on cell, so a draw
that collides with an occupied cell is neither detected nor retried and
still counts toward the quota (see the counterexample, where the
colliding obstacle overlaps the agent). -/
theorem tileWorld_obstacle_count (width height : Int) (obstacles holes : Rat)
    (g : Gen) :
    (tileWorldInit width height obstacles holes g).1.kindCount "OBSTACLE" =
      quota width height obstacles := by
  rw [tileWorldInit_stages]
  set agent := mkAgent g.fresh (g.names g.fresh) (pydivInt width 2) (pydivInt height 2)
    with hag
  set g1 : Gen := { g with fresh := g.fresh + 1 } with hg1
  set w1 : World := { width := width, height := height, things := [agent] } with hw1
  set c1 := quota width height obstacles with hc1
  set c2 := quota width height holes with hc2
  have hb1 : ∀ t ∈ w1.things, t.id < g1.fresh := by
    intro t ht
    have : t = agent := by simpa [hw1] using ht
    subst this
    simp [hag, mkAgent, hg1]
  obtain ⟨_, _, hth1, _, _, _, hf1⟩ :=
    placeLoop_spec mkObstacle (fun _ _ _ _ => rfl) c1 w1 g1 hb1
  have hb2 : ∀ t ∈ (placeLoop mkObstacle c1 w1 g1).1.things,
      t.id < (placeLoop mkObstacle c1 w1 g1).2.fresh := by
    rw [hth1, hf1]
    intro t ht
    rcases List.mem_append.mp ht with h1 | h2
    · have := hb1 t h1
      omega
    · exact genThings_id_lt mkObstacle (fun _ _ _ _ => rfl) c1 g1 t h2
  obtain ⟨_, _, hth2, _, _, _, hf2⟩ :=
    placeLoop_spec mkHole (fun _ _ _ _ => rfl) c2
      (placeLoop mkObstacle c1 w1 g1).1 (placeLoop mkObstacle c1 w1 g1).2 hb2
  have hb3 : ∀ t ∈ (placeLoop mkHole c2 (placeLoop mkObstacle c1 w1 g1).1
        (placeLoop mkObstacle c1 w1 g1).2).1.things,
      t.id < (placeLoop mkHole c2 (placeLoop mkObstacle c1 w1 g1).1
        (placeLoop mkObstacle c1 w1 g1).2).2.fresh := by
    rw [hth2, hf2]
    intro t ht
    rcases List.mem_append.mp ht with h1 | h2
    · have := hb2 t h1
      omega
    · exact genThings_id_lt mkHole (fun _ _ _ _ => rfl) c2 _ t h2
  obtain ⟨_, _, hth3, _, _, _, _⟩ :=
    placeLoop_spec mkTile (fun _ _ _ _ => rfl) c2
      (placeLoop mkHole c2 (placeLoop mkObstacle c1 w1 g1).1
        (placeLoop mkObstacle c1 w1 g1).2).1
      (placeLoop mkHole c2 (placeLoop mkObstacle c1 w1 g1).1
        (placeLoop mkObstacle c1 w1 g1).2).2 hb3
  unfold World.kindCount
  rw [hth3, hth2, hth1, hw1]
  simp only [List.filter_append, List.length_append]
  rw [genThings_kind_filter_eq mkObstacle "OBSTACLE" (fun _ _ _ _ => rfl) c1 g1]
  rw [genThings_kind_filter_ne mkHole "OBSTACLE" (fun _ _ _ _ => rfl) c2 _]
  rw [genThings_kind_filter_ne mkTile "OBSTACLE" (fun _ _ _ _ => rfl) c2 _]
  have : ([agent].filter (fun t => t.kind == "OBSTACLE")).length = 0 := by
    rw [hag]
    rfl
  rw [this]
  omega

/-- Counterexample for C9: with every draw landing on the agent's centre
cell of a 2×1 world, generation still terminates with exactly
int(0.5 × 2) = 1 obstacle, placed on top of the agent — the colliding
attempt is neither retried nor excluded from the quota. -/
theorem generation_no_retry_counterexample :
    (tileWorldInit 2 1 (mkRat 1 2) 0 fix9G).1.kindCount "OBSTACLE" = 1 ∧
      (tileWorldInit 2 1 (mkRat 1 2) 0 fix9G).1.things =
        [mkAgent 0 "n" 1 0, mkObstacle 1 "n" 1 0] ∧
      ¬ (tileWorldInit 2 1 (mkRat 1 2) 0 fix9G).1.atMostOnePerCell := by
  refine ⟨by decide, by decide, ?_⟩
  unfold World.atMostOnePerCell
  decide

theorem tileWorld_positions (width height : Int) (obstacles holes : Rat)
    (g : Gen) :
    (tileWorldInit width height obstacles holes g).1.things.map
        (fun t => (t.x, t.y)) =
      (pydivInt width 2, pydivInt height 2) ::
        (List.range (totalDraws width height obstacles holes)).map
          (fun k => g.rand (g.idx + k)) := by
  rw [tileWorldInit_stages]
  set agent := mkAgent g.fresh (g.names g.fresh) (pydivInt width 2) (pydivInt height 2)
    with hag
  set g1 : Gen := { g with fresh := g.fresh + 1 } with hg1
  set w1 : World := { width := width, height := height, things := [agent] } with hw1
  set c1 := quota width height obstacles with hc1
  set c2 := quota width height holes with hc2
  have hb1 : ∀ t ∈ w1.things, t.id < g1.fresh := by
    intro t ht
    have : t = agent := by simpa [hw1] using ht
    subst this
    simp [hag, mkAgent, hg1]
  obtain ⟨_, _, hth1, hr1, _, hi1, hf1⟩ :=
    placeLoop_spec mkObstacle (fun _ _ _ _ => rfl) c1 w1 g1 hb1
  have hb2 : ∀ t ∈ (placeLoop mkObstacle c1 w1 g1).1.things,
      t.id < (placeLoop mkObstacle c1 w1 g1).2.fresh := by
    rw [hth1, hf1]
    intro t ht
    rcases List.mem_append.mp ht with h1 | h2
    · have := hb1 t h1
      omega
    · exact genThings_id_lt mkObstacle (fun _ _ _ _ => rfl) c1 g1 t h2
  obtain ⟨_, _, hth2, hr2, _, hi2, hf2⟩ :=
    placeLoop_spec mkHole (fun _ _ _ _ => rfl) c2
      (placeLoop mkObstacle c1 w1 g1).1 (placeLoop mkObstacle c1 w1 g1).2 hb2
  have hb3 : ∀ t ∈ (placeLoop mkHole c2 (placeLoop mkObstacle c1 w1 g1).1
        (placeLoop mkObstacle c1 w1 g1).2).1.things,
      t.id < (placeLoop mkHole c2 (placeLoop mkObstacle c1 w1 g1).1
        (placeLoop mkObstacle c1 w1 g1).2).2.fresh := by
    rw [hth2, hf2]
    intro t ht
    rcases List.mem_append.mp ht with h1 | h2
    · have := hb2 t h1
      omega
    · exact genThings_id_lt mkHole (fun _ _ _ _ => rfl) c2 _ t h2
  obtain ⟨_, _, hth3, _, _, _, _⟩ :=
    placeLoop_spec mkTile (fun _ _ _ _ => rfl) c2
      (placeLoop mkHole c2 (placeLoop mkObstacle c1 w1 g1).1
        (placeLoop mkObstacle c1 w1 g1).2).1
      (placeLoop mkHole c2 (placeLoop mkObstacle c1 w1 g1).1
        (placeLoop mkObstacle c1 w1 g1).2).2 hb3
  rw [hth3, hth2, hth1, hw1]
  simp only [List.map_append]
  rw [genThings_positions mkObstacle (fun _ _ _ _ => rfl) c1 g1]
  rw [genThings_positions mkHole (fun _ _ _ _ => rfl) c2 _]
  rw [genThings_positions mkTile (fun _ _ _ _ => rfl) c2 _]
  rw [hr2, hi2, hr1, hi1]
  have hgidx : g1.idx = g.idx := rfl
  rw [hgidx]
  unfold totalDraws
  rw [← hc1, ← hc2]
  rw [List.range_add, List.range_add]
  simp only [List.map_append, List.map_map]
  have hB : (List.range c2).map ((fun k => g.rand (g.idx + k)) ∘ fun x => c1 + x) =
      (List.range c2).map (fun k => g.rand (g.idx + c1 + k)) := by
    apply List.map_congr_left
    intro k _
    simp only [Function.comp]
    congr 1
    omega
  have hC : (List.range c2).map
        ((fun k => g.rand (g.idx + k)) ∘ fun x => c1 + c2 + x) =
      (List.range c2).map (fun k => g.rand (g.idx + c1 + c2 + k)) := by
    apply List.map_congr_left
    intro k _
    simp only [Function.comp]
    congr 1
    omega
  rw [hB, hC]
  simp [List.append_assoc, hag, mkAgent]

theorem atMostOne_of_nodup_positions {w : World}
    (h : (w.things.map (fun t => (t.x, t.y))).Nodup) : w.atMostOnePerCell := by
  unfold World.atMostOnePerCell
  have hp := List.pairwise_map.mp h
  refine hp.imp ?_
  intro a b hab
  by_contra hcon
  push_neg at hcon
  exact hab (by rw [hcon.1, hcon.2])

/-- C4 (amended): allowing for the registry's actual behaviour, the
at-most-one-occupant property holds after generation exactly when the
drawn placement coordinates are pairwise distinct and avoid the agent's
centre cell (the generator itself never checks occupancy: its
non-replacing add keys on freshly generated ids, so colliding draws are
kept); resolve does not preserve the property — a push whose cascade
fails still moves the actor onto the occupant's cell (see the
counterexample). -/
theorem tileWorld_atMostOnePerCell (width height : Int) (obstacles holes : Rat)
    (g : Gen)
    (hnodup : ((List.range (totalDraws width height obstacles holes)).map
        (fun k => g.rand (g.idx + k))).Nodup)
    (hagent : (pydivInt width 2, pydivInt height 2) ∉
        (List.range (totalDraws width height obstacles holes)).map
          (fun k => g.rand (g.idx + k))) :
    (tileWorldInit width height obstacles holes g).1.atMostOnePerCell := by
  apply atMostOne_of_nodup_positions
  rw [tileWorld_positions]
  exact List.nodup_cons.mpr ⟨hagent, hnodup⟩

/-- Witness for the amended C4: a 3×1 world at obstacle density 1/3 with
draws (0,0) — distinct from each other and the agent centre (1,0). -/
theorem tileWorld_atMostOnePerCell_witness :
    ((List.range (totalDraws 3 1 (mkRat 1 3) 0)).map
        (fun k => fix4G.rand (fix4G.idx + k))).Nodup ∧
      ((pydivInt 3 2, pydivInt 1 2) ∉
        (List.range (totalDraws 3 1 (mkRat 1 3) 0)).map
          (fun k => fix4G.rand (fix4G.idx + k))) ∧
      (tileWorldInit 3 1 (mkRat 1 3) 0 fix4G).1.atMostOnePerCell :=
  ⟨by decide, by decide,
    tileWorld_atMostOnePerCell 3 1 (mkRat 1 3) 0 fix4G (by decide) (by decide)⟩

end Loudflow
